import Mathlib

/-!
Shallow embedding of `rl_agents/agents/common/models.py` over the reals,
with tensors modelled as `Fin`-indexed functions and the batched tensor
operations modelled per batch element (all operations in the source act
independently on batch rows).  Machine floats are modelled by `ℝ`.
-/

namespace RLAgents

/-- A linear layer without bias (`nn.Linear(i, o, bias=False)`):
`(W x) j = ∑ k, W j k * x k`. -/
noncomputable def linearNoBias {i o : ℕ} (W : Fin o → Fin i → ℝ) (x : Fin i → ℝ) :
    Fin o → ℝ :=
  fun j => ∑ k, W j k * x k

/-- A linear layer with bias (`nn.Linear(i, o)`). -/
structure Linear (i o : ℕ) where
  weight : Fin o → Fin i → ℝ
  bias : Fin o → ℝ

/-- Applying a biased linear layer: `(l x) j = ∑ k, weight j k * x k + bias j`. -/
noncomputable def Linear.apply {i o : ℕ} (l : Linear i o) (x : Fin i → ℝ) :
    Fin o → ℝ :=
  fun j => ∑ k, l.weight j k * x k + l.bias j

/-- `F.softmax(x, dim=-1)` on one row: `exp (x j) / ∑ k, exp (x k)`. -/
noncomputable def softmaxRow {n : ℕ} (x : Fin n → ℝ) : Fin n → ℝ :=
  fun j => Real.exp (x j) / ∑ k, Real.exp (x k)

/-- The raw attention scores of `attention` (models.py line 168):
`torch.matmul(query, key.transpose(-2, -1)) / math.sqrt(d_k)`,
for one batch element and one head. -/
noncomputable def rawScores {q n d : ℕ} (query : Fin q → Fin d → ℝ)
    (key : Fin n → Fin d → ℝ) : Fin q → Fin n → ℝ :=
  fun i j => (∑ k, query i k * key j k) / Real.sqrt d

/-- `scores.masked_fill(mask, v)` with an optional mask (models.py lines 169-170). -/
def maskedFill {q n : ℕ} (s : Fin q → Fin n → ℝ)
    (mask : Option (Fin q → Fin n → Bool)) (v : ℝ) : Fin q → Fin n → ℝ :=
  match mask with
  | none => s
  | some m => fun i j => if m i j then v else s i j

/-- The scaled dot product attention of models.py lines 157-175, per batch
element and head.  `dropout` is the optional dropout module applied to the
probability matrix; note that the source returns the (possibly dropped)
probability matrix together with its product with `value`. -/
noncomputable def attention {q n d : ℕ} (query : Fin q → Fin d → ℝ)
    (key : Fin n → Fin d → ℝ) (value : Fin n → Fin d → ℝ)
    (mask : Option (Fin q → Fin n → Bool))
    (dropout : Option ((Fin q → Fin n → ℝ) → Fin q → Fin n → ℝ)) :
    (Fin q → Fin d → ℝ) × (Fin q → Fin n → ℝ) :=
  let scores := maskedFill (rawScores query key) mask (-1e9)
  let p0 : Fin q → Fin n → ℝ := fun i => softmaxRow (scores i)
  let p : Fin q → Fin n → ℝ :=
    match dropout with
    | none => p0
    | some drop => drop p0
  (fun i f => ∑ j, p i j * value j f, p)

/-- Index of head `h`, per-head feature `p` inside a flat feature vector of
width `H*P`, as produced by `.view(batch, n, heads, features_per_head)` of a
row-major `(n, H*P)` tensor (models.py lines 84-86). -/
def flattenIdx {a b : ℕ} (i : Fin a) (j : Fin b) : Fin (a * b) :=
  ⟨i.val * b + j.val, by
    calc i.val * b + j.val < i.val * b + b := by omega
    _ = (i.val + 1) * b := by ring
    _ ≤ a * b := Nat.mul_le_mul_right b i.isLt⟩

/-- First (head) coordinate recovered from a flat feature index, as in the
`.reshape((batch_size, feature_size))` of models.py line 96. -/
def unflattenFst {a b : ℕ} (f : Fin (a * b)) : Fin a :=
  ⟨f.val / b, by
    have hb : 0 < b := by
      rcases Nat.eq_zero_or_pos b with h | h
      · exact absurd f.isLt (by simp [h])
      · exact h
    exact (Nat.div_lt_iff_lt_mul hb).mpr f.isLt⟩

/-- Second (per-head feature) coordinate recovered from a flat feature index. -/
def unflattenSnd {a b : ℕ} (f : Fin (a * b)) : Fin b :=
  ⟨f.val % b, by
    have hb : 0 < b := by
      rcases Nat.eq_zero_or_pos b with h | h
      · exact absurd f.isLt (by simp [h])
      · exact h
    exact Nat.mod_lt _ hb⟩

/-- The dropout module `nn.Dropout(p)` as applied by the source: it is
constructed fresh inside `EgoAttention.forward` (models.py line 95), so its
`training` flag is the `nn.Module` default `True` and it always performs the
training-mode computation: each entry is zeroed when its Bernoulli(p) draw
(`noise`) fires, and is scaled by `1/(1-p)` otherwise.  The random draws of
the call are passed explicitly as `noise`; a draw with `noise i j = true` has
probability `p` (so for `p = 0` the only possible draw is `noise ≡ false`). -/
noncomputable def dropoutApply {q n : ℕ} (p : ℝ) (noise : Fin q → Fin n → Bool)
    (m : Fin q → Fin n → ℝ) : Fin q → Fin n → ℝ :=
  fun i j => if noise i j then 0 else m i j / (1 - p)

/-- Parameters of the `EgoAttention` module (models.py lines 60-77), with
`feature_size = H * P`, `heads = H`, `features_per_head = P`. -/
structure EgoAttention (H P : ℕ) where
  value_all : Fin (H * P) → Fin (H * P) → ℝ
  key_all : Fin (H * P) → Fin (H * P) → ℝ
  query_ego : Fin (H * P) → Fin (H * P) → ℝ
  attention_combine : Fin (H * P) → Fin (H * P) → ℝ
  dropout_factor : ℝ

/-- The per-head invocation of the attention primitive inside
`EgoAttention.forward` (models.py lines 79-95), for one batch element:
the ego and the others are concatenated (`torch.cat`, ego first), projected
to key/value space, the ego alone is projected to query space, each
projection is split into heads, the mask (if any) is broadcast to the single
query row of each head, and a freshly constructed `nn.Dropout(dropout_factor)`
is passed to `attention`. -/
noncomputable def EgoAttention.heads {H P n : ℕ} (self : EgoAttention H P)
    (noise : Fin H → Fin 1 → Fin (n + 1) → Bool)
    (ego : Fin (H * P) → ℝ) (others : Fin n → Fin (H * P) → ℝ)
    (mask : Option (Fin (n + 1) → Bool)) (h : Fin H) :
    (Fin 1 → Fin P → ℝ) × (Fin 1 → Fin (n + 1) → ℝ) :=
  let input_all : Fin (n + 1) → Fin (H * P) → ℝ := Fin.cons ego others
  attention
    (fun _ p => linearNoBias self.query_ego ego (flattenIdx h p))
    (fun e p => linearNoBias self.key_all (input_all e) (flattenIdx h p))
    (fun e p => linearNoBias self.value_all (input_all e) (flattenIdx h p))
    (mask.map fun m _ e => m e)
    (some (dropoutApply self.dropout_factor (noise h)))

/-- The attended value recombined across heads: the source reshapes the
`(batch, heads, 1, features_per_head)` attention output back to
`(batch, feature_size)` (models.py line 96). -/
noncomputable def EgoAttention.attendedVector {H P n : ℕ} (self : EgoAttention H P)
    (noise : Fin H → Fin 1 → Fin (n + 1) → Bool)
    (ego : Fin (H * P) → ℝ) (others : Fin n → Fin (H * P) → ℝ)
    (mask : Option (Fin (n + 1) → Bool)) : Fin (H * P) → ℝ :=
  fun f => (self.heads noise ego others mask (unflattenFst f)).1 0 (unflattenSnd f)

/-- `EgoAttention.forward` (models.py lines 79-97) for one batch element:
returns the residual blend
`(attention_combine(attended) + ego) / 2` together with the per-head
attention matrix.  `noise` carries the Bernoulli draws of the dropout module
constructed inside the call. -/
noncomputable def EgoAttention.forward {H P n : ℕ} (self : EgoAttention H P)
    (noise : Fin H → Fin 1 → Fin (n + 1) → Bool)
    (ego : Fin (H * P) → ℝ) (others : Fin n → Fin (H * P) → ℝ)
    (mask : Option (Fin (n + 1) → Bool)) :
    (Fin (H * P) → ℝ) × (Fin H → Fin 1 → Fin (n + 1) → ℝ) :=
  (fun f =>
    (linearNoBias self.attention_combine (self.attendedVector noise ego others mask) f
      + ego f) / 2,
   fun h => (self.heads noise ego others mask h).2)

/-- The `EgoAttentionNetwork` module (models.py lines 100-113).  The embedding
blocks and the output layer are modelled as the functions they compute per
entity; `embedding` is the single block built at line 110, and the aliasing
`self.others_embedding = self.ego_embedding` of line 111 is modelled by
`ego_embedding` and `others_embedding` below both returning this one field. -/
structure EgoAttentionNetwork (H P inF outF : ℕ) where
  embedding : (Fin inF → ℝ) → Fin (H * P) → ℝ
  attention_layer : EgoAttention H P
  output_layer : (Fin (H * P) → ℝ) → Fin outF → ℝ
  presence_feature_idx : Fin inF

/-- `self.ego_embedding` (models.py line 110). -/
def EgoAttentionNetwork.ego_embedding {H P inF outF : ℕ}
    (net : EgoAttentionNetwork H P inF outF) : (Fin inF → ℝ) → Fin (H * P) → ℝ :=
  net.embedding

/-- `self.others_embedding = self.ego_embedding` (models.py line 111): the
same aliased block. -/
def EgoAttentionNetwork.others_embedding {H P inF outF : ℕ}
    (net : EgoAttentionNetwork H P inF outF) : (Fin inF → ℝ) → Fin (H * P) → ℝ :=
  net.embedding

/-- Replacing the shared embedding block's parameters (a parameter update of
the single aliased block). -/
def EgoAttentionNetwork.setEmbedding {H P inF outF : ℕ}
    (net : EgoAttentionNetwork H P inF outF)
    (emb : (Fin inF → ℝ) → Fin (H * P) → ℝ) : EgoAttentionNetwork H P inF outF :=
  { net with embedding := emb }

/-- `split_input` ego part: `x[:, 0:1, :]` (models.py line 146). -/
def EgoAttentionNetwork.splitEgo {b n inF : ℕ}
    (x : Fin b → Fin (n + 1) → Fin inF → ℝ) (i : Fin b) : Fin inF → ℝ :=
  x i 0

/-- `split_input` others part: `x[:, 1:, :]` (models.py line 147). -/
def EgoAttentionNetwork.splitOthers {b n inF : ℕ}
    (x : Fin b → Fin (n + 1) → Fin inF → ℝ) (i : Fin b) :
    Fin n → Fin inF → ℝ :=
  fun e => x i e.succ

/-- `split_input` mask part (models.py line 148):
`x[:, :, presence_feature_idx] < 0.5`, over the full entity set. -/
noncomputable def EgoAttentionNetwork.splitMask {H P inF outF b n : ℕ}
    (net : EgoAttentionNetwork H P inF outF)
    (x : Fin b → Fin (n + 1) → Fin inF → ℝ) (i : Fin b) : Fin (n + 1) → Bool :=
  fun e => if x i e net.presence_feature_idx < 0.5 then true else false

/-- `EgoAttentionNetwork.forward` (models.py lines 139-142): split the input,
embed ego and others through the (aliased) embedding blocks, attend, and feed
the attended ego representation through the output layer. -/
noncomputable def EgoAttentionNetwork.forward {H P inF outF b n : ℕ}
    (net : EgoAttentionNetwork H P inF outF)
    (noise : Fin b → Fin H → Fin 1 → Fin (n + 1) → Bool)
    (x : Fin b → Fin (n + 1) → Fin inF → ℝ) : Fin b → Fin outF → ℝ :=
  fun i => net.output_layer
    ((net.attention_layer.forward (noise i)
      (net.ego_embedding (EgoAttentionNetwork.splitEgo x i))
      (fun e => net.others_embedding (EgoAttentionNetwork.splitOthers x i e))
      (some (net.splitMask x i))).1)

/-- `EgoAttentionNetwork.get_attention_matrix` (models.py lines 151-154). -/
noncomputable def EgoAttentionNetwork.getAttentionMatrix {H P inF outF b n : ℕ}
    (net : EgoAttentionNetwork H P inF outF)
    (noise : Fin b → Fin H → Fin 1 → Fin (n + 1) → Bool)
    (x : Fin b → Fin (n + 1) → Fin inF → ℝ) :
    Fin b → Fin H → Fin 1 → Fin (n + 1) → ℝ :=
  fun i => (net.attention_layer.forward (noise i)
      (net.ego_embedding (EgoAttentionNetwork.splitEgo x i))
      (fun e => net.others_embedding (EgoAttentionNetwork.splitOthers x i e))
      (some (net.splitMask x i))).2

/-- The `DuelingNetwork` module (models.py lines 38-57): `base_module` is the
function computed by the block built by `model_factory`, `advantage` and
`value` are the two linear heads. -/
structure DuelingNetwork (inD hD out : ℕ) where
  base_module : (Fin inD → ℝ) → Fin hD → ℝ
  advantage : Linear hD out
  value : Linear hD 1

/-- `DuelingNetwork.forward` (models.py lines 53-57):
`value.expand(-1, out) + advantage - advantage.mean(1).unsqueeze(1).expand(-1, out)`. -/
noncomputable def DuelingNetwork.forward {inD hD out : ℕ}
    (self : DuelingNetwork inD hD out) (x : Fin inD → ℝ) : Fin out → ℝ :=
  let r := self.base_module x
  let adv := self.advantage.apply r
  let v : Fin out → ℝ := fun _ => self.value.apply r 0
  fun j => v j + adv j - (∑ k, adv k) / out

/-- A Python value as stored under a configuration key, with its truthiness
(only the constructors that appear in the configurations of models.py). -/
inductive PyVal
  | pbool (b : Bool)
  | pint (z : ℤ)
  | pstr (s : String)
  | pnone

/-- Python truthiness of a configuration value. -/
def PyVal.truthy : PyVal → Bool
  | .pbool b => b
  | .pint z => decide (z ≠ 0)
  | .pstr s => decide (s ≠ "")
  | .pnone => false

/-- The configuration of `MultiLayerPerceptron` after `Configurable.__init__`
has merged the user configuration over `default_config` (the merge itself
lives in `rl_agents/configuration.py`, outside the core source; per the spec,
unset keys fall back to the defaults below).  `inSize = none` models
`"in": None`. -/
structure MLPConfig where
  inSize : Option ℕ
  layers : List ℕ
  activation : String
  reshape : PyVal
  out : Option ℕ

/-- `MultiLayerPerceptron.default_config` (models.py lines 20-26).  Note that
the default `reshape` value is the non-empty string `"True"`. -/
def defaultMLPConfig : MLPConfig :=
  { inSize := none, layers := [64, 64], activation := "RELU",
    reshape := .pstr "True", out := none }

/-- Truthiness of `self.config.get("out", None)` (models.py lines 17 and 33):
`None` and `0` are falsy. -/
def outSet (c : MLPConfig) : Bool :=
  match c.out with
  | some o => decide (o ≠ 0)
  | none => false

/-- Errors raised during `MultiLayerPerceptron.__init__`:
`unknownActivation` models the `ValueError` of `activation_factory`
(models.py line 184); `linearSizeNone` models the `TypeError` raised by
`nn.Linear` when one of its sizes is `None` (i.e. the `"in"` key was never
resolved).  Both are construction-time configuration failures. -/
inductive ModelError
  | unknownActivation
  | linearSizeNone
deriving DecidableEq, Repr

/-- `activation_factory` (models.py lines 178-184), reduced to its
succeed-or-raise behaviour. -/
def activationCheck (s : String) : Except ModelError Unit :=
  if s = "RELU" then .ok ()
  else if s = "TANH" then .ok ()
  else .error .unknownActivation

/-- `nn.Linear(a, b)` applied to possibly-`None` sizes: raises unless both
sizes are set. -/
def mkLinearDims (a b : Option ℕ) : Except ModelError (ℕ × ℕ) :=
  match a, b with
  | some x, some y => .ok (x, y)
  | _, _ => .error .linearSizeNone

/-- The loop `[nn.Linear(sizes[i], sizes[i+1]) for i in range(len(sizes)-1)]`
(models.py line 15) over a sizes list with possibly-unset entries. -/
def buildLinears : List (Option ℕ) → Except ModelError (List (ℕ × ℕ))
  | a :: b :: rest =>
    match mkLinearDims a b with
    | .error e => .error e
    | .ok d =>
      match buildLinears (b :: rest) with
      | .error e => .error e
      | .ok ds => .ok (d :: ds)
  | _ => .ok []

/-- The shape skeleton of a constructed `MultiLayerPerceptron`: the sizes of
its hidden linear layers and of the optional `predict` projection. -/
structure MultiLayerPerceptron where
  layerDims : List (ℕ × ℕ)
  predictDims : Option (ℕ × ℕ)
deriving DecidableEq, Repr

/-- `MultiLayerPerceptron.__init__` (models.py lines 10-18), reduced to the
construction of its layer shapes: `sizes = [in] + layers`, then the
activation lookup (line 14), then the hidden linear layers (line 15), then —
only when `out` is truthy — the `predict` projection `Linear(sizes[-1], out)`
(lines 17-18). -/
def mkMLP (c : MLPConfig) : Except ModelError MultiLayerPerceptron :=
  let sizes : List (Option ℕ) := c.inSize :: c.layers.map some
  match activationCheck c.activation with
  | .error e => .error e
  | .ok _ =>
    match buildLinears sizes with
    | .error e => .error e
    | .ok ls =>
      if outSet c then
        match mkLinearDims (sizes.getLastD none) (some (c.out.getD 0)) with
        | .error e => .error e
        | .ok pd => .ok ⟨ls, some pd⟩
      else .ok ⟨ls, none⟩

/-- Result of the first stage of `MultiLayerPerceptron.forward` (models.py
lines 28-30) on a `(batch, entities, features)` input: either flattened to
`(batch, entities*features)` or kept as is. -/
inductive Reshaped (b e f : ℕ)
  | flat (t : Fin b → Fin (e * f) → ℝ)
  | kept (t : Fin b → Fin e → Fin f → ℝ)

/-- Row-major flattening of the non-batch dimensions:
`x.reshape(x.shape[0], -1)`. -/
noncomputable def flatten3 {b e f : ℕ} (x : Fin b → Fin e → Fin f → ℝ) :
    Fin b → Fin (e * f) → ℝ :=
  fun i j => x i (unflattenFst j) (unflattenSnd j)

/-- The reshape gate of `MultiLayerPerceptron.forward` (models.py lines
29-30): `if self.config["reshape"]: x = x.reshape(x.shape[0], -1)` — the
gate is the Python truthiness of the configured value. -/
noncomputable def mlpReshapeStage {b e f : ℕ} (c : MLPConfig)
    (x : Fin b → Fin e → Fin f → ℝ) : Reshaped b e f :=
  if c.reshape.truthy then .flat (flatten3 x) else .kept x

/-! ### Concrete instances used by witnesses and counterexamples -/

/-- Query of the C2 witness call: a single query row, `d = 1`, all zero. -/
noncomputable def c2Q : Fin 1 → Fin 1 → ℝ := fun _ _ => 0

/-- Keys of the C2 witness call: two kv entities, all zero. -/
noncomputable def c2K : Fin 2 → Fin 1 → ℝ := fun _ _ => 0

/-- Values of the C2 witness call. -/
noncomputable def c2V : Fin 2 → Fin 1 → ℝ := fun _ _ => 0

/-- Mask of the C2 witness call: kv position 0 masked, position 1 unmasked. -/
def c2M : Fin 1 → Fin 2 → Bool := fun _ j => decide (j = 0)

/-- Query of the C2 counterexample call: the single query entry is `-1e9`. -/
noncomputable def c2xQ : Fin 1 → Fin 1 → ℝ := fun _ _ => -1e9

/-- Keys of the C2 counterexample call: key 0 (masked anyway) is `0`, key 1
(unmasked) is `1`, so the unmasked raw score is `-1e9`. -/
noncomputable def c2xK : Fin 2 → Fin 1 → ℝ := fun j _ => if j = 0 then 0 else 1

/-- Values of the C2 counterexample call. -/
noncomputable def c2xV : Fin 2 → Fin 1 → ℝ := fun _ _ => 0

/-- Mask of the C2 counterexample call: position 0 masked, position 1 not. -/
def c2xM : Fin 1 → Fin 2 → Bool := fun _ j => decide (j = 0)

/-- `EgoAttention(feature_size=1, heads=1, dropout_factor=0.5)` with all
projection weights equal to 1, used to exhibit the always-active dropout. -/
noncomputable def c5Params : EgoAttention 1 1 :=
  { value_all := fun _ _ => 1, key_all := fun _ _ => 1,
    query_ego := fun _ _ => 1, attention_combine := fun _ _ => 1,
    dropout_factor := 0.5 }

/-- Ego input of the C5 call. -/
noncomputable def c5Ego : Fin (1 * 1) → ℝ := fun _ => 0

/-- Empty others input of the C5 call. -/
noncomputable def c5Others : Fin 0 → Fin (1 * 1) → ℝ := fun e _ => e.elim0

/-- A dropout draw where the Bernoulli(0.5) coin does not fire. -/
def c5Noise1 : Fin 1 → Fin 1 → Fin (0 + 1) → Bool := fun _ _ _ => false

/-- A dropout draw where the Bernoulli(0.5) coin fires. -/
def c5Noise2 : Fin 1 → Fin 1 → Fin (0 + 1) → Bool := fun _ _ _ => true

/-- The C6 counterexample configuration: `in` set, `layers` the empty list,
`out` unset (so no fallback projection at all). -/
def c6Config : MLPConfig :=
  { inSize := some 4, layers := [], activation := "RELU",
    reshape := .pbool false, out := none }

/-- `EgoAttention(feature_size=2, heads=2)` with zero weights and zero
dropout, used as the C7 witness layer. -/
noncomputable def c7Params : EgoAttention 2 1 :=
  { value_all := fun _ _ => 0, key_all := fun _ _ => 0,
    query_ego := fun _ _ => 0, attention_combine := fun _ _ => 0,
    dropout_factor := 0 }

/-- Ego input of the C7 witness call. -/
noncomputable def c7Ego : Fin (2 * 1) → ℝ := fun _ => 1

/-- Empty others input of the C7 witness call. -/
noncomputable def c7Others : Fin 0 → Fin (2 * 1) → ℝ := fun e _ => e.elim0

/-- All-clear dropout draw of the C7 witness call. -/
def c7Noise : Fin 2 → Fin 1 → Fin (0 + 1) → Bool := fun _ _ _ => false

/-- A concrete single-entity `EgoAttentionNetwork` for the C7 witness. -/
noncomputable def c7Net : EgoAttentionNetwork 2 1 1 1 :=
  { embedding := fun v _ => v 0,
    attention_layer := c7Params,
    output_layer := fun v _ => v 0,
    presence_feature_idx := 0 }

/-- Batched single-entity input of the C7 witness call. -/
noncomputable def c7x : Fin 1 → Fin (0 + 1) → Fin 1 → ℝ := fun _ _ _ => 1

/-- Batched all-clear dropout draw of the C7 witness call. -/
def c7NoiseN : Fin 1 → Fin 2 → Fin 1 → Fin (0 + 1) → Bool := fun _ _ _ _ => false

/-- The C9 witness configuration: the default configuration with `reshape`
set to the string `"False"`. -/
def c9Config : MLPConfig := { defaultMLPConfig with reshape := .pstr "False" }

/-- A second C9 witness configuration with an actually falsy `reshape`. -/
def c9ConfigFalsy : MLPConfig := { defaultMLPConfig with reshape := .pbool false }

/-- Concrete input batch of the C9 witness. -/
noncomputable def c9x : Fin 1 → Fin 1 → Fin 1 → ℝ := fun _ _ _ => 0

/-- A concrete `EgoAttentionNetwork` with one other entity for the C10
witness: `feature_size = 1`, one head, zero weights, zero dropout. -/
noncomputable def c10Net : EgoAttentionNetwork 1 1 1 1 :=
  { embedding := fun v _ => v 0,
    attention_layer :=
      { value_all := fun _ _ => 0, key_all := fun _ _ => 0,
        query_ego := fun _ _ => 0, attention_combine := fun _ _ => 0,
        dropout_factor := 0 },
    output_layer := fun v _ => v 0,
    presence_feature_idx := 0 }

/-- Input batch of the C10 witness: two entities whose presence feature is 0,
so every entity of the single batch row is masked. -/
noncomputable def c10x : Fin 1 → Fin (1 + 1) → Fin 1 → ℝ := fun _ _ _ => 0

/-- All-clear dropout draw of the C10 witness call. -/
def c10Noise : Fin 1 → Fin 1 → Fin 1 → Fin (1 + 1) → Bool := fun _ _ _ _ => false

/-! ### Helper lemmas -/

theorem flattenIdx_unflatten {a b : ℕ} (f : Fin (a * b)) :
    flattenIdx (unflattenFst f) (unflattenSnd f) = f := by
  apply Fin.ext
  show f.val / b * b + f.val % b = f.val
  rw [Nat.mul_comm]
  exact Nat.div_add_mod f.val b

theorem sum_exp_pos {n : ℕ} (hn : n ≠ 0) (x : Fin n → ℝ) :
    0 < ∑ k, Real.exp (x k) := by
  have : Nonempty (Fin n) := Fin.pos_iff_nonempty.mp (Nat.pos_of_ne_zero hn)
  exact Finset.sum_pos (fun k _ => Real.exp_pos _) Finset.univ_nonempty

theorem buildLinears_some (x : ℕ) (l : List ℕ) :
    ∃ r, buildLinears (some x :: l.map some) = .ok r := by
  induction l generalizing x with
  | nil => exact ⟨[], rfl⟩
  | cons y ys ih =>
    obtain ⟨r, hr⟩ := ih y
    exact ⟨(x, y) :: r, by simp [buildLinears, mkLinearDims, hr]⟩

theorem getLastD_some (x : ℕ) (l : List ℕ) :
    ∃ y, (some x :: l.map some : List (Option ℕ)).getLastD none = some y := by
  induction l generalizing x with
  | nil => exact ⟨x, rfl⟩
  | cons z zs ih =>
    obtain ⟨y, hy⟩ := ih z
    exact ⟨y, by simpa [List.getLastD_cons] using hy⟩

/-! ### Claims -/

/-- C1: for every query, key, value and optional boolean mask, the attention
primitive's probability matrix is the softmax (over the last, kv-entities axis)
of the raw scores `query·keyᵀ / sqrt d`, with masked positions replaced by the
sentinel `-1e9` before the softmax, and the returned output is the probability
matrix multiplied by `value`. -/
theorem attention_scaled_dot_product {q n d : ℕ} (query : Fin q → Fin d → ℝ)
    (key : Fin n → Fin d → ℝ) (value : Fin n → Fin d → ℝ)
    (mask : Option (Fin q → Fin n → Bool)) :
    (∀ i j, (attention query key value mask none).2 i j =
      Real.exp (match mask with
        | none => (∑ k, query i k * key j k) / Real.sqrt d
        | some m => if m i j then -1e9 else (∑ k, query i k * key j k) / Real.sqrt d) /
      ∑ j2, Real.exp (match mask with
        | none => (∑ k, query i k * key j2 k) / Real.sqrt d
        | some m => if m i j2 then -1e9 else (∑ k, query i k * key j2 k) / Real.sqrt d)) ∧
    (∀ i f, (attention query key value mask none).1 i f =
      ∑ j, (attention query key value mask none).2 i j * value j f) := by
  cases mask with
  | none => exact ⟨fun i j => rfl, fun i f => rfl⟩
  | some m => exact ⟨fun i j => rfl, fun i f => rfl⟩

/-- C3: `DuelingNetwork.forward` returns
`value + advantage - mean(advantage)` (value broadcast over the `out`
actions), and consequently the recombined advantage `output - value` averages
to zero over the action dimension, exactly, in the real-number model. -/
theorem dueling_mean_advantage_zero {inD hD out : ℕ}
    (self : DuelingNetwork inD hD out) (x : Fin inD → ℝ) :
    (∀ j, self.forward x j =
      self.value.apply (self.base_module x) 0
        + self.advantage.apply (self.base_module x) j
        - (∑ k, self.advantage.apply (self.base_module x) k) / out) ∧
    (∑ j, (self.forward x j - self.value.apply (self.base_module x) 0)) / out
      = 0 := by
  refine ⟨fun j => rfl, ?_⟩
  rcases Nat.eq_zero_or_pos out with h | h
  · subst h; simp
  · have h0 : (out : ℝ) ≠ 0 := Nat.cast_ne_zero.mpr h.ne'
    have hterm : ∀ j : Fin out,
        self.forward x j - self.value.apply (self.base_module x) 0
          = self.advantage.apply (self.base_module x) j
            - (∑ k, self.advantage.apply (self.base_module x) k) / out := by
      intro j
      simp only [DuelingNetwork.forward]
      ring
    rw [Finset.sum_congr rfl (fun j _ => hterm j), Finset.sum_sub_distrib,
      Finset.sum_const, Finset.card_univ, Fintype.card_fin, nsmul_eq_mul,
      mul_div_cancel₀ _ h0, sub_self, zero_div]

/-- C4: for every ego, others and mask input, `EgoAttention.forward` returns
as its result the recombined attended vector passed through the
`attention_combine` linear layer and then averaged elementwise with the
original, unattended ego features: `(combine(attended) + ego) / 2`. -/
theorem ego_attention_residual_blend {H P n : ℕ} (self : EgoAttention H P)
    (noise : Fin H → Fin 1 → Fin (n + 1) → Bool)
    (ego : Fin (H * P) → ℝ) (others : Fin n → Fin (H * P) → ℝ)
    (mask : Option (Fin (n + 1) → Bool)) :
    (self.forward noise ego others mask).1 = fun f =>
      ((∑ g, self.attention_combine f g
          * self.attendedVector noise ego others mask g)
        + ego f) / 2 :=
  rfl

/-- C8: in `EgoAttentionNetwork` the ego embedding block and the others
embedding block are the same aliased block: on identical per-entity feature
vectors the two roles compute identical outputs, and replacing the parameters
of the single shared block changes both roles identically. -/
theorem ego_others_embedding_shared {H P inF outF : ℕ}
    (net : EgoAttentionNetwork H P inF outF) (v : Fin inF → ℝ)
    (emb : (Fin inF → ℝ) → Fin (H * P) → ℝ) :
    net.ego_embedding v = net.others_embedding v ∧
    (net.setEmbedding emb).ego_embedding
      = (net.setEmbedding emb).others_embedding ∧
    (net.setEmbedding emb).ego_embedding = emb ∧
    (net.setEmbedding emb).others_embedding = emb :=
  ⟨rfl, rfl, rfl, rfl⟩

theorem attention_output_eq {q n d : ℕ} (query : Fin q → Fin d → ℝ)
    (key : Fin n → Fin d → ℝ) (value : Fin n → Fin d → ℝ)
    (mask : Option (Fin q → Fin n → Bool))
    (drop : Option ((Fin q → Fin n → ℝ) → Fin q → Fin n → ℝ))
    (i : Fin q) (f : Fin d) :
    (attention query key value mask drop).1 i f
      = ∑ j, (attention query key value mask drop).2 i j * value j f := by
  cases drop with
  | none => rfl
  | some g => rfl

theorem ego_attention_heads_single {H P : ℕ} (self : EgoAttention H P)
    (noise : Fin H → Fin 1 → Fin (0 + 1) → Bool)
    (ego : Fin (H * P) → ℝ) (others : Fin 0 → Fin (H * P) → ℝ)
    (mask : Option (Fin (0 + 1) → Bool))
    (hdrop : self.dropout_factor = 0)
    (hnoise : ∀ h i e, noise h i e = false) (h : Fin H) :
    (∀ i e, (self.heads noise ego others mask h).2 i e = 1) ∧
    (∀ i p, (self.heads noise ego others mask h).1 i p
      = linearNoBias self.value_all ego (flattenIdx h p)) := by
  have hp : ∀ i e, (self.heads noise ego others mask h).2 i e = 1 := by
    intro i e
    have he : e = 0 := Fin.eq_zero e
    subst he
    simp only [EgoAttention.heads, attention, dropoutApply, hnoise, hdrop,
      softmaxRow, Fin.sum_univ_succ, Fin.sum_univ_zero, add_zero,
      Bool.false_eq_true, if_false, sub_zero, div_one]
    exact div_self (Real.exp_ne_zero _)
  refine ⟨hp, ?_⟩
  intro i p
  have h2 : (self.heads noise ego others mask h).1 i p
      = ∑ j, (self.heads noise ego others mask h).2 i j
          * linearNoBias self.value_all
              ((Fin.cons ego others : Fin (0 + 1) → Fin (H * P) → ℝ) j)
              (flattenIdx h p) := rfl
  rw [h2, Fin.sum_univ_succ]
  simp [hp, Fin.cons_zero]

/-- C7: with exactly one entity (ego only, zero-width `others`) and the
configured dropout inactive, `EgoAttention.forward` is well defined and
reduces to self-attention over the single ego row: every head's attention
weight on the ego is `1`, the result is the combine/residual blend
`(attention_combine(value_all(ego)) + ego) / 2` of the ego's own value
projection with the ego features, and `EgoAttentionNetwork.forward` on a
single-entity input likewise succeeds and equals the output layer applied to
that blend of the embedded ego. -/
theorem ego_attention_single_entity {H P : ℕ} (self : EgoAttention H P)
    (noise : Fin H → Fin 1 → Fin (0 + 1) → Bool)
    (ego : Fin (H * P) → ℝ) (others : Fin 0 → Fin (H * P) → ℝ)
    (mask : Option (Fin (0 + 1) → Bool))
    (hdrop : self.dropout_factor = 0)
    (hnoise : ∀ h i e, noise h i e = false) :
    (∀ h i e, (self.forward noise ego others mask).2 h i e = 1) ∧
    ((self.forward noise ego others mask).1 = fun f =>
      (linearNoBias self.attention_combine (linearNoBias self.value_all ego) f
        + ego f) / 2) ∧
    (∀ {b inF outF : ℕ} (net : EgoAttentionNetwork H P inF outF)
      (noiseN : Fin b → Fin H → Fin 1 → Fin (0 + 1) → Bool)
      (x : Fin b → Fin (0 + 1) → Fin inF → ℝ) (i : Fin b),
      net.attention_layer.dropout_factor = 0 →
      (∀ h i1 e, noiseN i h i1 e = false) →
      net.forward noiseN x i = net.output_layer (fun f =>
        (linearNoBias net.attention_layer.attention_combine
            (linearNoBias net.attention_layer.value_all
              (net.embedding (EgoAttentionNetwork.splitEgo x i))) f
          + net.embedding (EgoAttentionNetwork.splitEgo x i) f) / 2)) := by
  have hres : ∀ (self2 : EgoAttention H P)
      (noise2 : Fin H → Fin 1 → Fin (0 + 1) → Bool)
      (ego2 : Fin (H * P) → ℝ) (others2 : Fin 0 → Fin (H * P) → ℝ)
      (mask2 : Option (Fin (0 + 1) → Bool)),
      self2.dropout_factor = 0 → (∀ h i e, noise2 h i e = false) →
      (self2.forward noise2 ego2 others2 mask2).1 = fun f =>
        (linearNoBias self2.attention_combine
          (linearNoBias self2.value_all ego2) f + ego2 f) / 2 := by
    intro self2 noise2 ego2 others2 mask2 hd2 hn2
    have hav : self2.attendedVector noise2 ego2 others2 mask2
        = linearNoBias self2.value_all ego2 := by
      funext f
      have := (ego_attention_heads_single self2 noise2 ego2 others2 mask2
        hd2 hn2 (unflattenFst f)).2 0 (unflattenSnd f)
      calc self2.attendedVector noise2 ego2 others2 mask2 f
          = linearNoBias self2.value_all ego2
              (flattenIdx (unflattenFst f) (unflattenSnd f)) := this
        _ = linearNoBias self2.value_all ego2 f := by rw [flattenIdx_unflatten]
    show (fun f => (linearNoBias self2.attention_combine
        (self2.attendedVector noise2 ego2 others2 mask2) f + ego2 f) / 2) = _
    rw [hav]
  refine ⟨?_, hres self noise ego others mask hdrop hnoise, ?_⟩
  · intro h i e
    exact (ego_attention_heads_single self noise ego others mask
      hdrop hnoise h).1 i e
  · intro b inF outF net noiseN x i hd hn
    show net.output_layer ((net.attention_layer.forward (noiseN i)
        (net.ego_embedding (EgoAttentionNetwork.splitEgo x i))
        (fun e => net.others_embedding (EgoAttentionNetwork.splitOthers x i e))
        (some (net.splitMask x i))).1) = _
    rw [hres net.attention_layer (noiseN i) _ _ _ hd hn]
    rfl

/-- C7 witness: a concrete two-head attention layer with zero dropout on a
single-entity input has ego attention weight 1, and the concrete
single-entity network forward pass equals the output layer applied to the
combine/residual blend of the embedded ego. -/
theorem ego_attention_single_entity_witness :
    (c7Params.forward c7Noise c7Ego c7Others none).2 0 0 0 = 1 ∧
    c7Net.forward c7NoiseN c7x 0 = c7Net.output_layer (fun f =>
      (linearNoBias c7Net.attention_layer.attention_combine
          (linearNoBias c7Net.attention_layer.value_all
            (c7Net.embedding (EgoAttentionNetwork.splitEgo c7x 0))) f
        + c7Net.embedding (EgoAttentionNetwork.splitEgo c7x 0) f) / 2) := by
  constructor
  · exact (ego_attention_single_entity c7Params c7Noise c7Ego c7Others none
      rfl (fun _ _ _ => rfl)).1 0 0 0
  · exact (ego_attention_single_entity c7Params c7Noise c7Ego c7Others none
      rfl (fun _ _ _ => rfl)).2.2 c7Net c7NoiseN c7x 0 rfl (fun _ _ _ => rfl)

/-- C10: the presence mask built by `split_input` covers every entity of the
row including entity 0 (the ego); when every entity of a batch row is masked,
every score of that row is replaced by the same `-1e9` sentinel, so (in the
exact-arithmetic model, with the configured dropout inactive) the softmax
yields exactly uniform attention weights `1/(n_others+1)` on every entity and
the forward pipeline is well defined rather than failing. -/
theorem ean_all_masked_uniform {H P inF outF b n : ℕ}
    (net : EgoAttentionNetwork H P inF outF)
    (noise : Fin b → Fin H → Fin 1 → Fin (n + 1) → Bool)
    (x : Fin b → Fin (n + 1) → Fin inF → ℝ) (i : Fin b)
    (hdrop : net.attention_layer.dropout_factor = 0)
    (hnoise : ∀ h i1 e, noise i h i1 e = false)
    (hmask : ∀ e, net.splitMask x i e = true) :
    (∀ e : Fin (n + 1), net.splitMask x i e
      = if x i e net.presence_feature_idx < 0.5 then true else false) ∧
    (∀ (qv : Fin 1 → Fin P → ℝ) (kv : Fin (n + 1) → Fin P → ℝ)
      (i1 : Fin 1) (j : Fin (n + 1)),
      maskedFill (rawScores qv kv)
        (some fun _ e => net.splitMask x i e) (-1e9) i1 j = -1e9) ∧
    (∀ h e, net.getAttentionMatrix noise x i h 0 e = 1 / ((n : ℝ) + 1)) := by
  refine ⟨fun e => rfl, ?_, ?_⟩
  · intro qv kv i1 j
    simp [maskedFill, hmask]
  · intro h e
    show (net.attention_layer.heads (noise i)
      (net.ego_embedding (EgoAttentionNetwork.splitEgo x i))
      (fun e => net.others_embedding (EgoAttentionNetwork.splitOthers x i e))
      (some (net.splitMask x i)) h).2 0 e = 1 / ((n : ℝ) + 1)
    simp only [EgoAttention.heads, attention, dropoutApply, hnoise, hdrop,
      Bool.false_eq_true, if_false, sub_zero, div_one, softmaxRow,
      maskedFill, Option.map_some']
    simp only [hmask, if_true]
    rw [Finset.sum_const, Finset.card_univ, Fintype.card_fin, nsmul_eq_mul]
    have hE : Real.exp (-1e9 : ℝ) ≠ 0 := Real.exp_ne_zero _
    have hN : ((n : ℝ) + 1) ≠ 0 := by positivity
    push_cast
    rw [div_mul_eq_div_div_swap, div_self hE, one_div]

/-- C10 witness: a concrete network and a batch row whose two entities both
have presence feature 0 (all masked) gets exactly uniform attention weights
`1/2`. -/
theorem ean_all_masked_uniform_witness :
    (∀ e : Fin (1 + 1), c10Net.splitMask c10x 0 e
      = if c10x 0 e c10Net.presence_feature_idx < 0.5 then true else false) ∧
    (∀ (qv : Fin 1 → Fin 1 → ℝ) (kv : Fin (1 + 1) → Fin 1 → ℝ)
      (i1 : Fin 1) (j : Fin (1 + 1)),
      maskedFill (rawScores qv kv)
        (some fun _ e => c10Net.splitMask c10x 0 e) (-1e9) i1 j = -1e9) ∧
    (∀ h e, c10Net.getAttentionMatrix c10Noise c10x 0 h 0 e
      = 1 / (((1 : ℕ) : ℝ) + 1)) :=
  ean_all_masked_uniform c10Net c10Noise c10x 0 rfl (fun _ _ _ => rfl)
    (fun e => by
      simp only [EgoAttentionNetwork.splitMask, c10Net, c10x]
      norm_num)

/-- C2 counterexample: with `d = 1`, a query entry of `-1e9`, kv position 0
masked and kv position 1 unmasked with raw score `-1e9`, the masked
position's post-softmax weight is `1/2`, not below `1e-6` (and the weights
over unmasked positions sum to `1/2`, not `1`): the claimed bound does not
hold for every key/query content. -/
theorem attention_masked_weight_not_small :
    c2xM 0 0 = true ∧ c2xM 0 1 = false ∧
    (attention c2xQ c2xK c2xV (some c2xM) none).2 0 0 = 1 / 2 ∧
    ¬((attention c2xQ c2xK c2xV (some c2xM) none).2 0 0 < 1e-6) := by
  have hs0 : maskedFill (rawScores c2xQ c2xK) (some c2xM) (-1e9) 0 0 = -1e9 := by
    simp [maskedFill, c2xM]
  have hs1 : maskedFill (rawScores c2xQ c2xK) (some c2xM) (-1e9) 0 1 = -1e9 := by
    simp only [maskedFill, c2xM, rawScores, c2xQ, c2xK, Fin.sum_univ_one]
    norm_num
  have hp : (attention c2xQ c2xK c2xV (some c2xM) none).2 0 0
      = Real.exp (maskedFill (rawScores c2xQ c2xK) (some c2xM) (-1e9) 0 0)
        / ∑ k, Real.exp (maskedFill (rawScores c2xQ c2xK) (some c2xM) (-1e9) 0 k) :=
    rfl
  rw [Fin.sum_univ_two] at hp
  have hhalf : (attention c2xQ c2xK c2xV (some c2xM) none).2 0 0 = 1 / 2 := by
    rw [hp, hs0, hs1]
    have hE : Real.exp (-1e9 : ℝ) ≠ 0 := Real.exp_ne_zero _
    field_simp
    ring
  exact ⟨rfl, rfl, hhalf, by rw [hhalf]; norm_num⟩

/-- C2 amended: for every attention call and every score row that has at
least one unmasked kv position whose raw score is at least `-100` (any
bounded-magnitude inputs satisfy this; the counterexample shows some bound is
necessary), and at most `10^6` kv positions, each masked position's
post-softmax attention weight is below `1e-6` regardless of its own key/value
content, and the attention weights summed over the unmasked positions equal 1
within `1e-5`. -/
theorem attention_masked_weights_small {q n d : ℕ} (Q : Fin q → Fin d → ℝ)
    (K V : Fin n → Fin d → ℝ) (M : Fin q → Fin n → Bool) (i : Fin q)
    (hrow : ∃ j, M i j = false ∧ -100 ≤ rawScores Q K i j)
    (hn : n ≤ 1000000) :
    (∀ j, M i j = true → (attention Q K V (some M) none).2 i j < 1e-6) ∧
    |(∑ j ∈ Finset.univ.filter (fun j => M i j = false),
        (attention Q K V (some M) none).2 i j) - 1| ≤ 1e-5 := by
  classical
  obtain ⟨j0, hj0, hs0⟩ := hrow
  have hn0 : n ≠ 0 := by
    intro h
    subst h
    exact j0.elim0
  set s : Fin n → ℝ := fun j => if M i j then -1e9 else rawScores Q K i j
    with hsdef
  have hps : ∀ j, (attention Q K V (some M) none).2 i j
      = Real.exp (s j) / ∑ k, Real.exp (s k) := fun j => rfl
  have hD : 0 < ∑ k, Real.exp (s k) := sum_exp_pos hn0 s
  have hsj0 : s j0 = rawScores Q K i j0 := by
    rw [hsdef]
    simp [hj0]
  have hDge : Real.exp (-100 : ℝ) ≤ ∑ k, Real.exp (s k) :=
    le_trans (Real.exp_le_exp.mpr (by rw [hsj0]; exact hs0))
      (Finset.single_le_sum (fun k _ => (Real.exp_pos (s k)).le)
        (Finset.mem_univ j0))
  have hbig : (499999951 : ℝ) ≤ Real.exp (499999950 : ℝ) := by
    have h := Real.add_one_le_exp (499999950 : ℝ)
    linarith
  have hsq : Real.exp (999999900 : ℝ) = Real.exp (499999950 : ℝ) ^ 2 := by
    rw [sq, ← Real.exp_add]
    norm_num
  have hsqge : (499999951 : ℝ) ^ 2 ≤ Real.exp (999999900 : ℝ) := by
    rw [hsq]
    exact pow_le_pow_left₀ (by norm_num) hbig 2
  have hepos : (0 : ℝ) < (499999951 : ℝ) ^ 2 := by positivity
  have hmasked : ∀ j, M i j = true →
      (attention Q K V (some M) none).2 i j ≤ 1 / (499999951 : ℝ) ^ 2 := by
    intro j hj
    have hsj : s j = -1e9 := by
      rw [hsdef]
      simp [hj]
    rw [hps j, hsj]
    calc Real.exp (-1e9 : ℝ) / ∑ k, Real.exp (s k)
        ≤ Real.exp (-1e9 : ℝ) / Real.exp (-100 : ℝ) := by
          apply div_le_div_of_nonneg_left (Real.exp_pos _).le
            (Real.exp_pos _) hDge
      _ = Real.exp (-999999900 : ℝ) := by
          rw [← Real.exp_sub]
          norm_num
      _ ≤ 1 / (499999951 : ℝ) ^ 2 := by
          rw [Real.exp_neg, inv_eq_one_div]
          exact one_div_le_one_div_of_le hepos hsqge
  refine ⟨fun j hj => lt_of_le_of_lt (hmasked j hj) (by norm_num), ?_⟩
  have htot : ∑ j, (attention Q K V (some M) none).2 i j = 1 := by
    simp only [hps]
    rw [← Finset.sum_div, div_self hD.ne']
  have hsplit : (∑ j ∈ Finset.univ.filter (fun j => M i j = false),
        (attention Q K V (some M) none).2 i j)
      + (∑ j ∈ Finset.univ.filter (fun j => ¬(M i j = false)),
        (attention Q K V (some M) none).2 i j) = 1 := by
    rw [Finset.sum_filter_add_sum_filter_not]
    exact htot
  have hTnonneg : 0 ≤ ∑ j ∈ Finset.univ.filter (fun j => ¬(M i j = false)),
      (attention Q K V (some M) none).2 i j := by
    apply Finset.sum_nonneg
    intro j _
    rw [hps j]
    positivity
  have hcard : ((Finset.univ.filter
      (fun j : Fin n => ¬(M i j = false))).card : ℝ) ≤ (n : ℝ) := by
    have := Finset.card_filter_le (Finset.univ : Finset (Fin n))
      (fun j => ¬(M i j = false))
    exact_mod_cast le_trans this (le_of_eq (by simp))
  have hTle : (∑ j ∈ Finset.univ.filter (fun j => ¬(M i j = false)),
      (attention Q K V (some M) none).2 i j) ≤ (n : ℝ) * (1 / (499999951 : ℝ) ^ 2) := by
    calc (∑ j ∈ Finset.univ.filter (fun j => ¬(M i j = false)),
        (attention Q K V (some M) none).2 i j)
        ≤ (Finset.univ.filter (fun j : Fin n => ¬(M i j = false))).card
            • (1 / (499999951 : ℝ) ^ 2) := by
          apply Finset.sum_le_card_nsmul
          intro j hj
          have hjt : M i j = true := by
            have := (Finset.mem_filter.mp hj).2
            simpa using this
          exact hmasked j hjt
      _ = ((Finset.univ.filter
            (fun j : Fin n => ¬(M i j = false))).card : ℝ)
            * (1 / (499999951 : ℝ) ^ 2) := nsmul_eq_mul _ _
      _ ≤ (n : ℝ) * (1 / (499999951 : ℝ) ^ 2) := by
          apply mul_le_mul_of_nonneg_right hcard
          positivity
  have hTsmall : (∑ j ∈ Finset.univ.filter (fun j => ¬(M i j = false)),
      (attention Q K V (some M) none).2 i j) ≤ 1e-5 := by
    calc (∑ j ∈ Finset.univ.filter (fun j => ¬(M i j = false)),
        (attention Q K V (some M) none).2 i j)
        ≤ (n : ℝ) * (1 / (499999951 : ℝ) ^ 2) := hTle
      _ ≤ (1000000 : ℝ) * (1 / (499999951 : ℝ) ^ 2) := by
          apply mul_le_mul_of_nonneg_right _ (by positivity)
          exact_mod_cast hn
      _ ≤ 1e-5 := by norm_num
  rw [abs_le]
  constructor
  · linarith
  · linarith

/-- C2 witness: a concrete call with one masked and one unmasked kv position
and bounded inputs in which the masked weight is below `1e-6` and the
unmasked weights sum to 1 within `1e-5`. -/
theorem attention_masked_weights_small_witness :
    (∀ j, c2M 0 j = true → (attention c2Q c2K c2V (some c2M) none).2 0 j < 1e-6) ∧
    |(∑ j ∈ Finset.univ.filter (fun j => c2M 0 j = false),
        (attention c2Q c2K c2V (some c2M) none).2 0 j) - 1| ≤ 1e-5 :=
  attention_masked_weights_small c2Q c2K c2V c2M 0
    ⟨1, by decide, by norm_num [rawScores, c2Q, c2K]⟩ (by norm_num)

/-- C5: the dropout module is constructed fresh inside
`EgoAttention.forward` (models.py line 95), so its training flag is always
the `nn.Module` default `True` and dropout is applied on every call, not only
during training: with `dropout_factor = 0.5` and no training mode in sight,
two calls on identical inputs that differ only in the dropout draws return
different attention matrices (here the single attention weight becomes `2`
under one draw and `0` under the other). -/
theorem ego_attention_dropout_always_active :
    (c5Params.forward c5Noise1 c5Ego c5Others none).2 0 0 0 = 2 ∧
    (c5Params.forward c5Noise2 c5Ego c5Others none).2 0 0 0 = 0 ∧
    (c5Params.forward c5Noise1 c5Ego c5Others none).2 0 0 0 ≠
      (c5Params.forward c5Noise2 c5Ego c5Others none).2 0 0 0 := by
  have h2 : (c5Params.forward c5Noise2 c5Ego c5Others none).2 0 0 0 = 0 := by
    simp [EgoAttention.forward, EgoAttention.heads, attention, dropoutApply,
      c5Noise2]
  have h1 : (c5Params.forward c5Noise1 c5Ego c5Others none).2 0 0 0 = 2 := by
    simp only [EgoAttention.forward, EgoAttention.heads, attention,
      dropoutApply, c5Noise1, c5Params, softmaxRow, maskedFill,
      Option.map_none', Fin.sum_univ_succ, Fin.sum_univ_zero, add_zero,
      if_false, Bool.false_eq_true]
    rw [div_self (Real.exp_ne_zero _)]
    norm_num
  exact ⟨h1, h2, by rw [h1, h2]; norm_num⟩

/-- C6 counterexample: the configuration `{in: 4, layers: [], activation:
"RELU", out: None}` has an empty `layers` list and no fallback, yet
`MultiLayerPerceptron.__init__` succeeds and constructs a block with no
layers at all, contradicting the claim that every such configuration fails
with a ConfigurationError. -/
theorem mkMLP_empty_layers_constructs :
    mkMLP c6Config = .ok ⟨[], none⟩ := by
  rfl

/-- C6 amended: construction of the dense feed-forward block fails iff the
activation name is unknown, or the `in` key is unset and some linear layer
must actually be built with it (`layers` non-empty, or `layers` empty with a
truthy `out` so the predict projection reads the unset size).  In particular
an empty `layers` list alone does not fail: the block is constructed with no
hidden layers. -/
theorem mkMLP_ok_iff (c : MLPConfig) :
    (mkMLP c).isOk = true ↔
      ((c.activation = "RELU" ∨ c.activation = "TANH") ∧
        (c.inSize ≠ none ∨ (c.layers = [] ∧ outSet c = false))) := by
  obtain ⟨inS, layers, act, rsh, out⟩ := c
  by_cases hRT : act = "RELU" ∨ act = "TANH"
  · have hok : activationCheck act = .ok () := by
      rcases hRT with h | h <;> simp [activationCheck, h]
    cases hin : inS with
    | some x =>
      obtain ⟨r, hr⟩ := buildLinears_some x layers
      obtain ⟨y, hy⟩ := getLastD_some x layers
      rw [List.getLastD_eq_getLast?] at hy
      by_cases hout : outSet ⟨some x, layers, act, rsh, out⟩ = true
      · simp [mkMLP, hok, hr, hy, hout, mkLinearDims, Except.isOk,
          Except.toBool, hRT]
      · simp [mkMLP, hok, hr, eq_false_of_ne_true hout, Except.isOk,
          Except.toBool, hRT]
    | none =>
      cases layers with
      | nil =>
        by_cases hout : outSet ⟨none, [], act, rsh, out⟩ = true
        · simp [mkMLP, hok, buildLinears, mkLinearDims, hout, Except.isOk,
            Except.toBool, hRT]
        · simp [mkMLP, hok, buildLinears, mkLinearDims,
            eq_false_of_ne_true hout, Except.isOk, Except.toBool, hRT]
      | cons z zs =>
        simp [mkMLP, hok, buildLinears, mkLinearDims, Except.isOk,
          Except.toBool, hRT]
  · have herr : activationCheck act = .error .unknownActivation := by
      rcases not_or.mp hRT with ⟨hR, hT⟩
      simp [activationCheck, hR, hT]
    simp [mkMLP, herr, Except.isOk, Except.toBool, hRT]

/-- C9: `MultiLayerPerceptron.forward` gates the flattening of its input on
the Python truthiness of the configured `reshape` value, and the default
configuration stores `reshape` as the non-empty string `"True"`; hence any
non-empty string — including `"False"` — causes flattening to
`(batch, -1)`, and exactly the falsy values (`False`, `0`, `""`, `None`)
skip it. -/
theorem mlp_reshape_truthiness {b e f : ℕ} (x : Fin b → Fin e → Fin f → ℝ)
    (s : String) (hs : s ≠ "") (c c2 : MLPConfig)
    (hc : c.reshape = .pstr s) (hc2 : c2.reshape.truthy = false) :
    defaultMLPConfig.reshape = .pstr "True" ∧
    (PyVal.pstr "False").truthy = true ∧
    mlpReshapeStage c x = .flat (flatten3 x) ∧
    mlpReshapeStage c2 x = .kept x ∧
    (∀ v : PyVal, v.truthy = false ↔
      (v = .pbool false ∨ v = .pint 0 ∨ v = .pstr "" ∨ v = .pnone)) := by
  refine ⟨rfl, by decide, ?_, ?_, ?_⟩
  · simp [mlpReshapeStage, hc, PyVal.truthy, hs]
  · simp [mlpReshapeStage, hc2]
  · intro v
    cases v with
    | pbool bb => cases bb <;> simp [PyVal.truthy]
    | pint z => simp [PyVal.truthy]
    | pstr t => simp [PyVal.truthy]
    | pnone => simp [PyVal.truthy]

/-- C9 witness: at the default configuration with `reshape := "False"` the
input is flattened, and with `reshape := False` (the boolean) it is kept. -/
theorem mlp_reshape_truthiness_witness :
    defaultMLPConfig.reshape = .pstr "True" ∧
    (PyVal.pstr "False").truthy = true ∧
    mlpReshapeStage c9Config c9x = .flat (flatten3 c9x) ∧
    mlpReshapeStage c9ConfigFalsy c9x = .kept c9x ∧
    (∀ v : PyVal, v.truthy = false ↔
      (v = .pbool false ∨ v = .pint 0 ∨ v = .pstr "" ∨ v = .pnone)) :=
  mlp_reshape_truthiness c9x "False" (by decide) c9Config c9ConfigFalsy rfl rfl

end RLAgents
